import Mathlib

/-!
Shallow embedding of the AI-response parsing core of the stock-news-brief
application (the body of the Python function "summarize_with_gemini" in
app.py, lines 276-353), together with theorems settling the specification
claims about it.

Python text values are modelled as lists of characters (abbrev Str), so
that every Python string primitive used by the source (startswith, the
substring test "in", split on a separator, strip, lower, join, rfind) has
a direct executable counterpart below.  The external generative-language
call is modelled as an "Except Str Str" argument (error message or raw
response text); everything downstream of that call is translated
line-for-line from the source.
-/

/-- A Python text value, modelled as its sequence of characters. -/
abbrev Str := List Char

/-- Python "s.startswith(p)". -/
def startsWith : Str → Str → Bool
  | _, [] => true
  | [], _ :: _ => false
  | c :: s, d :: p => c == d && startsWith s p

/-- Python "sub in s": substring containment. -/
def strContains (s sub : Str) : Bool :=
  if startsWith s sub then true
  else
    match s with
    | [] => false
    | _ :: t => strContains t sub

/-- The whitespace characters removed by Python "str.strip()" with no
argument (the ASCII whitespace set; the source never feeds the parser
text with non-ASCII whitespace at the ends). -/
def isPySpace (c : Char) : Bool :=
  c == ' ' || c == '\t' || c == '\n' || c == '\r' || c == '\x0b' || c == '\x0c'

/-- Python "s.strip()": drop whitespace from both ends. -/
def pyStrip (s : Str) : Str :=
  ((s.dropWhile isPySpace).reverse.dropWhile isPySpace).reverse

/-- Python "s.split(c)" for a one-character separator: the list of pieces
between occurrences of the separator, keeping empty pieces. -/
def charSplit (c : Char) : Str → List Str
  | [] => [[]]
  | d :: t =>
    match charSplit c t with
    | [] => [[]]
    | h :: r => if d == c then [] :: h :: r else (d :: h) :: r

/-- Last element of a list of pieces (Python "[-1]" on the never-empty
result of "split"). -/
def lastPiece : List Str → Str
  | [] => []
  | [p] => p
  | _ :: r => lastPiece r

/-- Python "'\n'.join(xs)". -/
def joinNL : List Str → Str
  | [] => []
  | [s] => s
  | s :: rest => s ++ '\n' :: joinNL rest

/-- The text after the first occurrence of "sep" in "s" (none when "sep"
does not occur; the source only uses non-empty separators). -/
def afterFirstOcc (sep : Str) (s : Str) : Option Str :=
  if sep = [] then none
  else if startsWith s sep then some (s.drop sep.length)
  else
    match s with
    | [] => none
    | _ :: t => afterFirstOcc sep t

/-- One consumption pass of Python "s.split(sep)[-1]" for a multi-character
separator: repeatedly jump past the leftmost occurrence of "sep"; the fuel
"s.length" bounds the number of jumps (each jump removes at least one
character, so the fuel is never exhausted early). -/
def lastSplitPieceAux (sep : Str) : Nat → Str → Str
  | 0, s => s
  | fuel + 1, s =>
    match afterFirstOcc sep s with
    | none => s
    | some r => lastSplitPieceAux sep fuel r

/-- Python "s.split(sep)[-1]": the text after the last (left-to-right
consumed) occurrence of "sep", or all of "s" when "sep" does not occur. -/
def lastSplitPiece (sep s : Str) : Str := lastSplitPieceAux sep s.length s

/-- Python "s.lower()" (character-wise; all characters the source compares
after lowering are ASCII). -/
def lowerStr (s : Str) : Str := s.map Char.toLower

/-- Python "s.rfind(sub)": the greatest index at which "sub" occurs in
"s", or -1 when it does not occur. -/
def rfindSub (s sub : Str) : Int :=
  match ((List.range (s.length + 1)).filter
      (fun k => startsWith (s.drop k) sub)).getLast? with
  | some k => (k : Int)
  | none => -1

/-- Source literal "한국어 제목:" (translated-title marker). -/
def titleMarker : Str := "한국어 제목:".data

/-- Source literal "3줄 요약:" (3-point-summary marker). -/
def summaryMarker : Str := "3줄 요약:".data

/-- Source literal "핵심 문장:" (key-quotations marker). -/
def quotesMarker : Str := "핵심 문장:".data

/-- Source literal "감성 분석" (sentiment marker, spaced form). -/
def sentMarkerSp : Str := "감성 분석".data

/-- Source literal "감성분석" (sentiment marker, unspaced form). -/
def sentMarkerNoSp : Str := "감성분석".data

/-- Source literal "호재" (the positive sentiment token). -/
def posTok : Str := "호재".data

/-- Source literal "악재" (the negative sentiment token). -/
def negTok : Str := "악재".data

/-- Source literal "중립" (the neutral sentiment value). -/
def neutralTok : Str := "중립".data

/-- Source literal "감성" (the bare sentiment word used by the re-scan). -/
def gamseongTok : Str := "감성".data

/-- Source literal "sentiment" (used lower-cased by the re-scan). -/
def sentimentWord : Str := "sentiment".data

/-- Source literal ":" as text. -/
def colonStr : Str := ":".data

/-- Source literal "•" (bullet marker). -/
def bulletTok : Str := "•".data

/-- Source literal "-" (alternative bullet marker). -/
def dashTok : Str := "-".data

/-- Source literal ">" (quote marker). -/
def gtTok : Str := ">".data

/-- Source literal "\"" (quotation character; the source checks it twice,
both literals being the same ASCII character). -/
def quoteTok : Str := "\"".data

/-- The mutable locals of the parsing loop: korean_title, summary,
key_quotes, sentiment (initialised to the fallback title, "", "", "중립"). -/
structure ScanState where
  korean_title : Str
  summary : Str
  key_quotes : Str
  sentiment : Str
deriving DecidableEq

/-- Bullet collection after a "3줄 요약:" line: over the given window,
keep each line whose stripped form starts with "•" or "-", stripped
(source lines 289-292). -/
def collectBullets (w : List Str) : List Str :=
  w.filterMap (fun l =>
    let s := pyStrip l
    if startsWith s bulletTok || startsWith s dashTok then some s else none)

/-- Quote collection after a "핵심 문장:" line: over the given window,
keep each stripped line starting with ">" or a double quote (the source
tests the same quote character twice), and stop at a non-quote line that
mentions "감성 분석" (source lines 296-302). -/
def collectQuotes : List Str → List Str
  | [] => []
  | l :: rest =>
    let stripped := pyStrip l
    if startsWith stripped gtTok || startsWith stripped quoteTok
        || startsWith stripped quoteTok then
      stripped :: collectQuotes rest
    else if strContains stripped sentMarkerSp then []
    else collectQuotes rest

/-- The sentiment text extracted from a sentiment-marker line:
"line.split(':')[-1].strip() if ':' in line else line" (source line 305). -/
def sentimentTextOfLine (line : Str) : Str :=
  if strContains line colonStr then pyStrip (lastPiece (charSplit ':' line))
  else line

/-- Classification of a sentiment text (source lines 306-311): "호재" wins
over "악재"; anything else is "중립". -/
def classifySentiment (text : Str) : Str :=
  if strContains text posTok then posTok
  else if strContains text negTok then negTok
  else neutralTok

/-- The branch of the parsing loop taken for one line, where "rest" is the
list of lines after it (source lines 284-311; note the elif chain: an
earlier marker on the same line shadows a later one). -/
def scanStep (response_text line : Str) (rest : List Str) (st : ScanState) :
    ScanState :=
  if strContains line titleMarker then
    { st with korean_title := pyStrip (lastSplitPiece titleMarker line) }
  else if strContains line summaryMarker then
    let summary_lines := collectBullets (rest.take 3)
    { st with summary :=
        if summary_lines = [] then response_text else joinNL summary_lines }
  else if strContains line quotesMarker then
    let quote_lines := collectQuotes (rest.take 3)
    { st with key_quotes :=
        if quote_lines = [] then [] else joinNL quote_lines }
  else if strContains line sentMarkerSp || strContains line sentMarkerNoSp then
    { st with sentiment := classifySentiment (sentimentTextOfLine line) }
  else st

/-- The whole parsing loop over the list of lines. -/
def scanGo (response_text : Str) : List Str → ScanState → ScanState
  | [], st => st
  | line :: rest, st =>
    scanGo response_text rest (scanStep response_text line rest st)

/-- "response_text.strip().split('\n')" (source line 277). -/
def pyLines (response_text : Str) : List Str :=
  charSplit '\n' (pyStrip response_text)

/-- Fallback tier: re-scan every line for one mentioning "감성" (or
"sentiment" case-insensitively) that names a token; first match wins
(source lines 320-328). -/
def rescanSentiment : List Str → Str → Str
  | [], sentiment => sentiment
  | line :: rest, sentiment =>
    if strContains line gamseongTok
        || strContains (lowerStr line) sentimentWord then
      if strContains line posTok then posTok
      else if strContains line negTok then negTok
      else rescanSentiment rest sentiment
    else rescanSentiment rest sentiment

/-- Last-resort tier: compare the last occurrence of "호재" and of "악재"
in the full raw text; the later one (when present) wins (source lines
331-337). -/
def lastMentionSentiment (response_text sentiment : Str) : Str :=
  let last_positive := rfindSub response_text posTok
  let last_negative := rfindSub response_text negTok
  if last_positive > last_negative ∧ last_positive ≠ -1 then posTok
  else if last_negative > last_positive ∧ last_negative ≠ -1 then negTok
  else sentiment

/-- The scan of the raw response starting from the initial locals
(fallback title, "", "", "중립"). -/
def scanResult (response_text news_title : Str) : ScanState :=
  scanGo response_text (pyLines response_text)
    ⟨news_title, [], [], neutralTok⟩

/-- The tiered sentiment fallback applied after the scan (source lines
318-337): when the scan left "중립", re-scan the lines; when that still
leaves "중립", fall back to the last mention in the full text. -/
def finalSentiment (response_text s0 : Str) : Str :=
  let s1 := if s0 = neutralTok then
      rescanSentiment (pyLines response_text) s0
    else s0
  if s1 = neutralTok then lastMentionSentiment response_text s1 else s1

/-- The result record of "summarize_with_gemini".  The success path always
carries a "key_quotes" entry (possibly empty); the error-path dictionary
omits the key, modelled as "none". -/
structure Summary where
  korean_title : Str
  summary : Str
  key_quotes : Option Str
  sentiment : Str
  raw_response : Str
deriving DecidableEq

/-- The pure response-parsing core (source lines 276-345): everything the
function does after the generative call returned "response_text". -/
def parseResponse (response_text news_title : Str) : Summary :=
  let st := scanResult response_text news_title
  { korean_title := st.korean_title
    summary := if st.summary = [] then response_text else st.summary
    key_quotes := some st.key_quotes
    sentiment := finalSentiment response_text st.sentiment
    raw_response := response_text }

/-- Source literal "⚠️ 요약 생성 실패: " (the error placeholder prefix of
the degraded summary, source line 350). -/
def errorPlaceholder : Str := "⚠️ 요약 생성 실패: ".data

/-- "summarize_with_gemini" with the external generative call abstracted:
"generation" is either the raw response text or the error message of the
exception caught by the try/except (source lines 246-353).  The error path
returns the degraded dictionary of lines 348-353. -/
def summarize_with_gemini (news_title : Str) (generation : Except Str Str) :
    Summary :=
  match generation with
  | .ok response_text => parseResponse response_text news_title
  | .error e =>
      { korean_title := news_title
        summary := errorPlaceholder ++ e
        key_quotes := none
        sentiment := neutralTok
        raw_response := [] }

/-- A line on which the scan takes the translated-title branch. -/
def isTitleBranch (line : Str) : Bool := strContains line titleMarker

/-- A line on which the scan takes the 3-point-summary branch (shadowed by
the title marker through the elif chain). -/
def isSummaryBranch (line : Str) : Bool :=
  !isTitleBranch line && strContains line summaryMarker

/-- A line on which the scan takes the key-quotations branch. -/
def isQuotesBranch (line : Str) : Bool :=
  !isTitleBranch line && !strContains line summaryMarker
    && strContains line quotesMarker

/-- A line on which the scan takes the sentiment branch. -/
def isSentimentBranch (line : Str) : Bool :=
  !isTitleBranch line && !strContains line summaryMarker
    && !strContains line quotesMarker
    && (strContains line sentMarkerSp || strContains line sentMarkerNoSp)

/-- The text after the last occurrence of the character "c" (the whole
text when "c" does not occur), stated independently of "charSplit"; used
to phrase what the sentiment extraction computes. -/
def suffixAfterLastChar (c : Char) : Str → Str
  | [] => []
  | d :: t =>
    if strContains t [c] then suffixAfterLastChar c t
    else if d == c then t
    else d :: t

/-- Modelled from the claim wording of C4 (not from the source): the
trimmed remainder of the line after the FIRST colon, the whole line when
it has no colon.  Compared against the source's "sentimentTextOfLine". -/
def sentimentTextFirstColonSpec (line : Str) : Str :=
  if strContains line colonStr then
    pyStrip ((afterFirstOcc colonStr line).getD line)
  else line

/-- Modelled from the claim wording of C8 (not from the source): quote
collection over ALL lines following the marker, with no 3-line window,
stopping at a non-quote line that mentions the sentiment marker.  Compared
against the source's windowed collection. -/
def collectQuotesUnboundedSpec : List Str → List Str
  | [] => []
  | l :: rest =>
    let stripped := pyStrip l
    if startsWith stripped gtTok || startsWith stripped quoteTok then
      stripped :: collectQuotesUnboundedSpec rest
    else if strContains stripped sentMarkerSp then []
    else collectQuotesUnboundedSpec rest

/-! ### Basic lemmas about the string primitives -/

/-- Every text starts with the empty text. -/
theorem startsWith_nil_right (s : Str) : startsWith s [] = true := by
  cases s <;> rfl

/-- No empty text starts with a non-empty one. -/
theorem startsWith_nil_left (d : Char) (p : Str) :
    startsWith [] (d :: p) = false := rfl

/-- Starting with a concatenation implies starting with its left part. -/
theorem startsWith_append_left (a b s : Str)
    (h : startsWith s (a ++ b) = true) : startsWith s a = true := by
  induction a generalizing s with
  | nil => exact startsWith_nil_right s
  | cons x a ih =>
    cases s with
    | nil => exact absurd h (by simp [startsWith])
    | cons y s =>
      rw [List.cons_append, startsWith, Bool.and_eq_true] at h
      rw [startsWith, Bool.and_eq_true]
      exact ⟨h.1, ih s h.2⟩

/-- Unfolding lemma: containment holds when the text starts with the
pattern. -/
theorem strContains_of_startsWith (s sub : Str)
    (h : startsWith s sub = true) : strContains s sub = true := by
  rw [strContains.eq_def, h]
  simp

/-- Unfolding lemma: containment is preserved by prepending a character. -/
theorem strContains_cons_of (c : Char) (t sub : Str)
    (h : strContains t sub = true) : strContains (c :: t) sub = true := by
  rw [strContains.eq_def]
  by_cases hs : startsWith (c :: t) sub = true
  · rw [hs]
    simp
  · simp only [Bool.not_eq_true] at hs
    rw [hs]
    simpa using h

/-- Inversion for containment on a non-empty text. -/
theorem strContains_cons_elim (c : Char) (t sub : Str)
    (h : strContains (c :: t) sub = true) :
    startsWith (c :: t) sub = true ∨ strContains t sub = true := by
  rw [strContains.eq_def] at h
  by_cases hs : startsWith (c :: t) sub = true
  · exact Or.inl hs
  · simp only [Bool.not_eq_true] at hs
    rw [hs] at h
    exact Or.inr (by simpa using h)

/-- Containing a concatenation implies containing its left part. -/
theorem strContains_append_left (a b s : Str)
    (h : strContains s (a ++ b) = true) : strContains s a = true := by
  induction s with
  | nil =>
    rw [strContains.eq_def] at h
    cases a with
    | nil => exact strContains_of_startsWith [] [] (startsWith_nil_right [])
    | cons x a =>
      rw [List.cons_append, startsWith_nil_left] at h
      exact absurd h (by simp)
  | cons c t ih =>
    rcases strContains_cons_elim c t (a ++ b) h with hs | ht
    · exact strContains_of_startsWith _ _ (startsWith_append_left a b _ hs)
    · exact strContains_cons_of c t a (ih ht)

/-- Containment of a one-character pattern is membership. -/
theorem strContains_single_iff (c : Char) (t : Str) :
    strContains t [c] = true ↔ c ∈ t := by
  induction t with
  | nil =>
    rw [strContains.eq_def]
    simp [startsWith_nil_left]
  | cons d t ih =>
    rw [strContains.eq_def]
    by_cases hd : d = c
    · subst hd
      have : startsWith (d :: t) [d] = true := by
        rw [startsWith, startsWith_nil_right]
        simp
      rw [this]
      simp
    · have : startsWith (d :: t) [c] = false := by
        rw [startsWith, startsWith_nil_right]
        simp [hd]
      rw [this]
      simp [hd, ih, List.mem_cons]
      intro h
      exact absurd h.symm hd

/-! ### The last piece of a single-character split -/

/-- Equation lemma for "charSplit" on a non-empty text. -/
theorem charSplit_cons (c d : Char) (t : Str) :
    charSplit c (d :: t) =
      match charSplit c t with
      | [] => [[]]
      | h :: r => if d == c then [] :: h :: r else (d :: h) :: r := rfl

/-- Equation lemma for "lastPiece" on a list with at least two pieces. -/
theorem lastPiece_cons_cons (x y : Str) (t : List Str) :
    lastPiece (x :: y :: t) = lastPiece (y :: t) := rfl

/-- Equation lemma for "joinNL" on a list with at least two texts. -/
theorem joinNL_cons_cons (s c : Str) (t : List Str) :
    joinNL (s :: c :: t) = s ++ '\n' :: joinNL (c :: t) := rfl

/-- Equation lemma for "suffixAfterLastChar" on a non-empty text. -/
theorem suffixAfterLastChar_cons (c d : Char) (t : Str) :
    suffixAfterLastChar c (d :: t) =
      if strContains t [c] then suffixAfterLastChar c t
      else if d == c then t else d :: t := rfl

/-- A single-character split never produces an empty list of pieces. -/
theorem charSplit_ne_nil (c : Char) (s : Str) : charSplit c s ≠ [] := by
  cases s with
  | nil => simp [charSplit]
  | cons d t =>
    rw [charSplit_cons]
    cases hq : charSplit c t with
    | nil => simp
    | cons h r =>
      by_cases hd : (d == c) = true <;> simp [hd]

/-- Splitting a text without the separator gives the one-piece list. -/
theorem charSplit_of_not_mem (c : Char) (t : Str) (h : c ∉ t) :
    charSplit c t = [t] := by
  induction t with
  | nil => rfl
  | cons d t ih =>
    have hd : ¬(d = c) := fun he => h (he ▸ List.mem_cons_self d t)
    have ht : c ∉ t := fun hm => h (List.mem_cons_of_mem d hm)
    rw [charSplit_cons, ih ht]
    simp [hd]

/-- Splitting a text containing the separator gives at least two pieces. -/
theorem two_le_length_charSplit (c : Char) (t : Str) (h : c ∈ t) :
    2 ≤ (charSplit c t).length := by
  induction t with
  | nil => cases h
  | cons d t ih =>
    rw [charSplit_cons]
    cases hq : charSplit c t with
    | nil => exact absurd hq (charSplit_ne_nil c t)
    | cons h0 r =>
      by_cases hd : (d == c) = true
      · simp [hd]
      · have hm : c ∈ t := by
          rcases List.mem_cons.mp h with he | hm
          · exact absurd (beq_iff_eq.mpr he.symm) hd
          · exact hm
        have h2 := ih hm
        rw [hq] at h2
        simp only [List.length_cons] at h2
        simp only [hd, if_false, Bool.false_eq_true, List.length_cons]
        omega

/-- A text without the separator is its own suffix after the last
separator. -/
theorem suffixAfterLastChar_of_not_mem (c : Char) (t : Str) (h : c ∉ t) :
    suffixAfterLastChar c t = t := by
  cases t with
  | nil => rfl
  | cons d t =>
    have hd : ¬(d = c) := fun he => h (he ▸ List.mem_cons_self d t)
    have ht : c ∉ t := fun hm => h (List.mem_cons_of_mem d hm)
    have hc : strContains t [c] = false := by
      rcases hq : strContains t [c] with _ | _
      · rfl
      · exact absurd ((strContains_single_iff c t).mp hq) ht
    rw [suffixAfterLastChar_cons, hc]
    simp [hd]

/-- Conditional equation for "charSplit" on a non-empty text, given the
split of the tail. -/
theorem charSplit_cons_eq (c d : Char) (t h0 : Str) (r : List Str)
    (hq : charSplit c t = h0 :: r) :
    charSplit c (d :: t) =
      if d == c then [] :: h0 :: r else (d :: h0) :: r := by
  rw [charSplit_cons, hq]

/-- The last piece of a single-character split is the suffix after the
last occurrence of the separator. -/
theorem lastPiece_charSplit (c : Char) (s : Str) :
    lastPiece (charSplit c s) = suffixAfterLastChar c s := by
  induction s with
  | nil => rfl
  | cons d t ih =>
    cases hq : charSplit c t with
    | nil => exact absurd hq (charSplit_ne_nil c t)
    | cons h0 r =>
      rw [charSplit_cons_eq c d t h0 r hq, suffixAfterLastChar_cons]
      by_cases hm : c ∈ t
      · have hcont : strContains t [c] = true :=
          (strContains_single_iff c t).mpr hm
        have h2 := two_le_length_charSplit c t hm
        rw [hq] at h2
        simp only [List.length_cons] at h2
        obtain ⟨x, xs, rfl⟩ : ∃ x xs, r = x :: xs := by
          cases r with
          | nil => simp at h2
          | cons x xs => exact ⟨x, xs, rfl⟩
        rw [hcont, if_pos rfl]
        by_cases hd : (d == c) = true
        · rw [if_pos hd, lastPiece_cons_cons, ← hq, ih]
        · rw [if_neg hd, lastPiece_cons_cons, ← lastPiece_cons_cons h0 x xs,
            ← hq, ih]
      · have hcont : strContains t [c] = false := by
          rcases hq2 : strContains t [c] with _ | _
          · rfl
          · exact absurd ((strContains_single_iff c t).mp hq2) hm
        have hone := charSplit_of_not_mem c t hm
        rw [hq] at hone
        obtain ⟨he0, her⟩ : h0 = t ∧ r = [] := by
          cases hone
          exact ⟨rfl, rfl⟩
        subst he0
        subst her
        rw [hcont, if_neg Bool.false_ne_true]
        by_cases hd : (d == c) = true
        · simp only [if_pos hd]
          rfl
        · simp only [if_neg hd]
          rfl

/-! ### Nonemptiness facts -/

/-- Joining a non-empty list of non-empty texts with newlines is
non-empty. -/
theorem joinNL_ne_nil (bs : List Str) (h0 : bs ≠ [])
    (h1 : ∀ b ∈ bs, b ≠ []) : joinNL bs ≠ [] := by
  cases bs with
  | nil => exact absurd rfl h0
  | cons b rest =>
    cases rest with
    | nil => exact h1 b (List.mem_cons_self b [])
    | cons c t =>
      rw [joinNL_cons_cons]
      simp

/-- Every collected bullet line is non-empty (it starts with a bullet
character). -/
theorem mem_collectBullets_ne_nil (w : List Str) (b : Str)
    (h : b ∈ collectBullets w) : b ≠ [] := by
  unfold collectBullets at h
  rw [List.mem_filterMap] at h
  obtain ⟨l, _, hf⟩ := h
  by_cases hc : (startsWith (pyStrip l) bulletTok
      || startsWith (pyStrip l) dashTok) = true
  · simp only [hc, if_true] at hf
    obtain rfl : pyStrip l = b := by simpa using hf
    intro hb
    rw [hb] at hc
    simp [bulletTok, dashTok, startsWith] at hc
  · simp only [Bool.not_eq_true] at hc
    simp [hc] at hf

/-! ### Characterisation of the parsing loop, field by field -/

/-- Effect of one loop step on korean_title. -/
theorem scanStep_korean_title (rt l : Str) (rest : List Str)
    (st : ScanState) :
    (scanStep rt l rest st).korean_title =
      if isTitleBranch l then pyStrip (lastSplitPiece titleMarker l)
      else st.korean_title := by
  unfold scanStep isTitleBranch
  by_cases h1 : strContains l titleMarker = true
  · simp [h1]
  · simp only [Bool.not_eq_true] at h1
    by_cases h2 : strContains l summaryMarker = true
    · simp [h1, h2]
    · simp only [Bool.not_eq_true] at h2
      by_cases h3 : strContains l quotesMarker = true
      · simp [h1, h2, h3]
      · simp only [Bool.not_eq_true] at h3
        by_cases h4 : (strContains l sentMarkerSp
            || strContains l sentMarkerNoSp) = true
        · simp [h1, h2, h3, h4]
        · simp only [Bool.not_eq_true] at h4
          simp [h1, h2, h3, h4]

/-- Effect of one loop step on summary. -/
theorem scanStep_summary (rt l : Str) (rest : List Str) (st : ScanState) :
    (scanStep rt l rest st).summary =
      if isSummaryBranch l then
        (if collectBullets (rest.take 3) = [] then rt
         else joinNL (collectBullets (rest.take 3)))
      else st.summary := by
  unfold scanStep isSummaryBranch isTitleBranch
  by_cases h1 : strContains l titleMarker = true
  · simp [h1]
  · simp only [Bool.not_eq_true] at h1
    by_cases h2 : strContains l summaryMarker = true
    · simp [h1, h2]
    · simp only [Bool.not_eq_true] at h2
      by_cases h3 : strContains l quotesMarker = true
      · simp [h1, h2, h3]
      · simp only [Bool.not_eq_true] at h3
        by_cases h4 : (strContains l sentMarkerSp
            || strContains l sentMarkerNoSp) = true
        · simp [h1, h2, h3, h4]
        · simp only [Bool.not_eq_true] at h4
          simp [h1, h2, h3, h4]

/-- Effect of one loop step on key_quotes. -/
theorem scanStep_key_quotes (rt l : Str) (rest : List Str)
    (st : ScanState) :
    (scanStep rt l rest st).key_quotes =
      if isQuotesBranch l then
        (if collectQuotes (rest.take 3) = [] then []
         else joinNL (collectQuotes (rest.take 3)))
      else st.key_quotes := by
  unfold scanStep isQuotesBranch isTitleBranch
  by_cases h1 : strContains l titleMarker = true
  · simp [h1]
  · simp only [Bool.not_eq_true] at h1
    by_cases h2 : strContains l summaryMarker = true
    · simp [h1, h2]
    · simp only [Bool.not_eq_true] at h2
      by_cases h3 : strContains l quotesMarker = true
      · simp [h1, h2, h3]
      · simp only [Bool.not_eq_true] at h3
        by_cases h4 : (strContains l sentMarkerSp
            || strContains l sentMarkerNoSp) = true
        · simp [h1, h2, h3, h4]
        · simp only [Bool.not_eq_true] at h4
          simp [h1, h2, h3, h4]

/-- Effect of one loop step on sentiment. -/
theorem scanStep_sentiment (rt l : Str) (rest : List Str) (st : ScanState) :
    (scanStep rt l rest st).sentiment =
      if isSentimentBranch l then
        classifySentiment (sentimentTextOfLine l)
      else st.sentiment := by
  unfold scanStep isSentimentBranch isTitleBranch
  by_cases h1 : strContains l titleMarker = true
  · simp [h1]
  · simp only [Bool.not_eq_true] at h1
    by_cases h2 : strContains l summaryMarker = true
    · simp [h1, h2]
    · simp only [Bool.not_eq_true] at h2
      by_cases h3 : strContains l quotesMarker = true
      · simp [h1, h2, h3]
      · simp only [Bool.not_eq_true] at h3
        by_cases h4 : (strContains l sentMarkerSp
            || strContains l sentMarkerNoSp) = true
        · simp [h1, h2, h3, h4]
        · simp only [Bool.not_eq_true] at h4
          simp [h1, h2, h3, h4]

/-- Lines on which the loop takes another branch leave korean_title
unchanged. -/
theorem scanGo_korean_title_invariant (rt : Str) (ls : List Str)
    (st : ScanState) (h : ∀ l ∈ ls, isTitleBranch l = false) :
    (scanGo rt ls st).korean_title = st.korean_title := by
  induction ls generalizing st with
  | nil => rfl
  | cons l rest ih =>
    rw [scanGo, ih _ (fun x hx => h x (List.mem_cons_of_mem l hx)),
      scanStep_korean_title, h l (List.mem_cons_self l rest)]
    simp

/-- Lines on which the loop takes another branch leave summary
unchanged. -/
theorem scanGo_summary_invariant (rt : Str) (ls : List Str)
    (st : ScanState) (h : ∀ l ∈ ls, isSummaryBranch l = false) :
    (scanGo rt ls st).summary = st.summary := by
  induction ls generalizing st with
  | nil => rfl
  | cons l rest ih =>
    rw [scanGo, ih _ (fun x hx => h x (List.mem_cons_of_mem l hx)),
      scanStep_summary, h l (List.mem_cons_self l rest)]
    simp

/-- Lines on which the loop takes another branch leave key_quotes
unchanged. -/
theorem scanGo_key_quotes_invariant (rt : Str) (ls : List Str)
    (st : ScanState) (h : ∀ l ∈ ls, isQuotesBranch l = false) :
    (scanGo rt ls st).key_quotes = st.key_quotes := by
  induction ls generalizing st with
  | nil => rfl
  | cons l rest ih =>
    rw [scanGo, ih _ (fun x hx => h x (List.mem_cons_of_mem l hx)),
      scanStep_key_quotes, h l (List.mem_cons_self l rest)]
    simp

/-- Lines on which the loop takes another branch leave sentiment
unchanged. -/
theorem scanGo_sentiment_invariant (rt : Str) (ls : List Str)
    (st : ScanState) (h : ∀ l ∈ ls, isSentimentBranch l = false) :
    (scanGo rt ls st).sentiment = st.sentiment := by
  induction ls generalizing st with
  | nil => rfl
  | cons l rest ih =>
    rw [scanGo, ih _ (fun x hx => h x (List.mem_cons_of_mem l hx)),
      scanStep_sentiment, h l (List.mem_cons_self l rest)]
    simp

/-- The korean_title produced by the loop comes from the last
title-branch line. -/
theorem scanGo_korean_title_last (rt : Str) (pre rest : List Str)
    (mid : Str) (st : ScanState) (hb : isTitleBranch mid = true)
    (hr : ∀ l ∈ rest, isTitleBranch l = false) :
    (scanGo rt (pre ++ mid :: rest) st).korean_title =
      pyStrip (lastSplitPiece titleMarker mid) := by
  induction pre generalizing st with
  | nil =>
    rw [List.nil_append, scanGo, scanGo_korean_title_invariant rt rest _ hr,
      scanStep_korean_title, hb]
    simp
  | cons p pre ih =>
    rw [List.cons_append, scanGo]
    exact ih _

/-- The summary produced by the loop comes from the last summary-branch
line and its 3-line window. -/
theorem scanGo_summary_last (rt : Str) (pre rest : List Str) (mid : Str)
    (st : ScanState) (hb : isSummaryBranch mid = true)
    (hr : ∀ l ∈ rest, isSummaryBranch l = false) :
    (scanGo rt (pre ++ mid :: rest) st).summary =
      (if collectBullets (rest.take 3) = [] then rt
       else joinNL (collectBullets (rest.take 3))) := by
  induction pre generalizing st with
  | nil =>
    rw [List.nil_append, scanGo, scanGo_summary_invariant rt rest _ hr,
      scanStep_summary, hb]
    simp
  | cons p pre ih =>
    rw [List.cons_append, scanGo]
    exact ih _

/-- The key_quotes produced by the loop come from the last quotes-branch
line and its 3-line window. -/
theorem scanGo_key_quotes_last (rt : Str) (pre rest : List Str) (mid : Str)
    (st : ScanState) (hb : isQuotesBranch mid = true)
    (hr : ∀ l ∈ rest, isQuotesBranch l = false) :
    (scanGo rt (pre ++ mid :: rest) st).key_quotes =
      (if collectQuotes (rest.take 3) = [] then []
       else joinNL (collectQuotes (rest.take 3))) := by
  induction pre generalizing st with
  | nil =>
    rw [List.nil_append, scanGo, scanGo_key_quotes_invariant rt rest _ hr,
      scanStep_key_quotes, hb]
    simp
  | cons p pre ih =>
    rw [List.cons_append, scanGo]
    exact ih _

/-- The sentiment produced by the loop is the classification of the last
sentiment-branch line, whatever it classifies to. -/
theorem scanGo_sentiment_last (rt : Str) (pre rest : List Str) (mid : Str)
    (st : ScanState) (hb : isSentimentBranch mid = true)
    (hr : ∀ l ∈ rest, isSentimentBranch l = false) :
    (scanGo rt (pre ++ mid :: rest) st).sentiment =
      classifySentiment (sentimentTextOfLine mid) := by
  induction pre generalizing st with
  | nil =>
    rw [List.nil_append, scanGo, scanGo_sentiment_invariant rt rest _ hr,
      scanStep_sentiment, hb]
    simp
  | cons p pre ih =>
    rw [List.cons_append, scanGo]
    exact ih _

/-! ### The sentiment value is always one of the three tokens -/

/-- Classification always yields one of the three tokens. -/
theorem classifySentiment_mem (t : Str) :
    classifySentiment t = posTok ∨ classifySentiment t = negTok
      ∨ classifySentiment t = neutralTok := by
  unfold classifySentiment
  by_cases h1 : strContains t posTok = true
  · exact Or.inl (by simp [h1])
  · simp only [Bool.not_eq_true] at h1
    by_cases h2 : strContains t negTok = true
    · exact Or.inr (Or.inl (by simp [h1, h2]))
    · simp only [Bool.not_eq_true] at h2
      exact Or.inr (Or.inr (by simp [h1, h2]))

/-- The loop keeps the sentiment inside the three-token set. -/
theorem scanGo_sentiment_mem (rt : Str) (ls : List Str) (st : ScanState)
    (h : st.sentiment = posTok ∨ st.sentiment = negTok
      ∨ st.sentiment = neutralTok) :
    (scanGo rt ls st).sentiment = posTok
      ∨ (scanGo rt ls st).sentiment = negTok
      ∨ (scanGo rt ls st).sentiment = neutralTok := by
  induction ls generalizing st with
  | nil => exact h
  | cons l rest ih =>
    rw [scanGo]
    refine ih _ ?_
    rw [scanStep_sentiment]
    by_cases hb : isSentimentBranch l = true
    · rw [hb, if_pos rfl]
      exact classifySentiment_mem _
    · simp only [Bool.not_eq_true] at hb
      rw [hb]
      simpa using h

/-- The re-scan tier returns a token or leaves the sentiment alone. -/
theorem rescanSentiment_mem (ls : List Str) (s : Str) :
    rescanSentiment ls s = posTok ∨ rescanSentiment ls s = negTok
      ∨ rescanSentiment ls s = s := by
  induction ls with
  | nil => exact Or.inr (Or.inr rfl)
  | cons l rest ih =>
    rw [rescanSentiment]
    by_cases hc : (strContains l gamseongTok
        || strContains (lowerStr l) sentimentWord) = true
    · rw [if_pos hc]
      by_cases hp : strContains l posTok = true
      · exact Or.inl (by simp [hp])
      · simp only [Bool.not_eq_true] at hp
        by_cases hn : strContains l negTok = true
        · exact Or.inr (Or.inl (by simp [hp, hn]))
        · simp only [Bool.not_eq_true] at hn
          simpa [hp, hn] using ih
    · rw [if_neg hc]
      exact ih

/-- The last-mention tier returns a token or leaves the sentiment
alone. -/
theorem lastMentionSentiment_mem (rt s : Str) :
    lastMentionSentiment rt s = posTok ∨ lastMentionSentiment rt s = negTok
      ∨ lastMentionSentiment rt s = s := by
  unfold lastMentionSentiment
  by_cases h1 : rfindSub rt posTok > rfindSub rt negTok
      ∧ rfindSub rt posTok ≠ -1
  · exact Or.inl (by simp [h1])
  · by_cases h2 : rfindSub rt negTok > rfindSub rt posTok
        ∧ rfindSub rt negTok ≠ -1
    · exact Or.inr (Or.inl (by simp [h1, h2]))
    · exact Or.inr (Or.inr (by simp [h1, h2]))

/-! ### The tiered fallback -/

/-- A non-neutral scan result is final: the fallback tiers do not run. -/
theorem finalSentiment_of_ne (rt s0 : Str) (h : s0 ≠ neutralTok) :
    finalSentiment rt s0 = s0 := by
  simp [finalSentiment, h]

/-- A neutral scan result hands over to the re-scan tier and then to the
last-mention tier. -/
theorem finalSentiment_neutral (rt : Str) :
    finalSentiment rt neutralTok =
      (if rescanSentiment (pyLines rt) neutralTok = neutralTok then
        lastMentionSentiment rt (rescanSentiment (pyLines rt) neutralTok)
      else rescanSentiment (pyLines rt) neutralTok) := by
  simp [finalSentiment]

/-! ### Projections of the parsed result -/

/-- Projection: the korean_title field of the parsed result. -/
theorem parseResponse_korean_title (rt t : Str) :
    (parseResponse rt t).korean_title = (scanResult rt t).korean_title :=
  rfl

/-- Projection: the summary field of the parsed result, with the
empty-summary fallback. -/
theorem parseResponse_summary (rt t : Str) :
    (parseResponse rt t).summary =
      (if (scanResult rt t).summary = [] then rt
       else (scanResult rt t).summary) := rfl

/-- Projection: the key_quotes field of the parsed result. -/
theorem parseResponse_key_quotes (rt t : Str) :
    (parseResponse rt t).key_quotes = some (scanResult rt t).key_quotes :=
  rfl

/-- Projection: the sentiment field of the parsed result. -/
theorem parseResponse_sentiment (rt t : Str) :
    (parseResponse rt t).sentiment =
      finalSentiment rt (scanResult rt t).sentiment := rfl

/-- Projection: the raw_response field of the parsed result. -/
theorem parseResponse_raw_response (rt t : Str) :
    (parseResponse rt t).raw_response = rt := rfl

/-! ### Lemmas about lines with no sentiment wording -/

/-- Both sentiment markers begin with the bare word "감성". -/
theorem sentMarkerSp_decomp : sentMarkerSp = gamseongTok ++ " 분석".data := by
  decide

/-- The unspaced sentiment marker also begins with "감성". -/
theorem sentMarkerNoSp_decomp : sentMarkerNoSp = gamseongTok ++ "분석".data := by
  decide

/-- A sentiment-branch line contains the bare word "감성". -/
theorem isSentimentBranch_contains_gamseong (l : Str)
    (h : isSentimentBranch l = true) : strContains l gamseongTok = true := by
  unfold isSentimentBranch at h
  simp only [Bool.and_eq_true, Bool.or_eq_true] at h
  rcases h.2 with hsp | hnsp
  · exact strContains_append_left _ _ _ (sentMarkerSp_decomp ▸ hsp)
  · exact strContains_append_left _ _ _ (sentMarkerNoSp_decomp ▸ hnsp)

/-- When no line mentions "감성" or "sentiment", the re-scan tier leaves
the sentiment alone. -/
theorem rescanSentiment_of_none (ls : List Str) (s : Str)
    (h : ∀ l ∈ ls, strContains l gamseongTok = false
      ∧ strContains (lowerStr l) sentimentWord = false) :
    rescanSentiment ls s = s := by
  induction ls with
  | nil => rfl
  | cons l rest ih =>
    obtain ⟨h1, h2⟩ := h l (List.mem_cons_self l rest)
    rw [rescanSentiment, if_neg (by simp [h1, h2])]
    exact ih (fun x hx => h x (List.mem_cons_of_mem l hx))

/-! ### Lemmas about the last-mention tier -/

/-- The result of "rfind" is at least -1. -/
theorem rfindSub_ge_neg_one (s sub : Str) : -1 ≤ rfindSub s sub := by
  unfold rfindSub
  cases ((List.range (s.length + 1)).filter
      (fun k => startsWith (s.drop k) sub)).getLast? with
  | none => simp
  | some k =>
    simp only []
    omega

/-- When the positive token occurs later, the last-mention tier answers
"호재". -/
theorem lastMentionSentiment_pos (rt s : Str)
    (h : rfindSub rt posTok > rfindSub rt negTok) :
    lastMentionSentiment rt s = posTok := by
  have hne : rfindSub rt posTok ≠ -1 := by
    have := rfindSub_ge_neg_one rt negTok
    omega
  unfold lastMentionSentiment
  rw [if_pos ⟨h, hne⟩]

/-- When the negative token occurs later, the last-mention tier answers
"악재". -/
theorem lastMentionSentiment_neg (rt s : Str)
    (h : rfindSub rt negTok > rfindSub rt posTok) :
    lastMentionSentiment rt s = negTok := by
  have hne : rfindSub rt negTok ≠ -1 := by
    have := rfindSub_ge_neg_one rt posTok
    omega
  unfold lastMentionSentiment
  rw [if_neg (by omega), if_pos ⟨h, hne⟩]

/-- When neither token occurs, the last-mention tier leaves the sentiment
alone. -/
theorem lastMentionSentiment_none (rt s : Str)
    (hp : rfindSub rt posTok = -1) (hn : rfindSub rt negTok = -1) :
    lastMentionSentiment rt s = s := by
  unfold lastMentionSentiment
  rw [if_neg (by omega), if_neg (by omega)]

/-! ### The claims -/

/-- Claim C5: when the upstream generation call fails, the function
returns (rather than raising) a degraded result whose summary is the
visible error placeholder followed by the error message and whose
sentiment is Neutral ("중립"); the title falls back to the news title and
the raw response is empty. -/
theorem claim_C5 (news_title e : Str) :
    summarize_with_gemini news_title (Except.error e) =
      { korean_title := news_title
        summary := errorPlaceholder ++ e
        key_quotes := none
        sentiment := neutralTok
        raw_response := [] } := rfl

/-- Claim C6: for every non-empty raw response text, the raw_response
field of the parsed output is exactly the input text, whatever the rest
of the parse does. -/
theorem claim_C6 (raw fallback : Str) (h : raw ≠ []) :
    (parseResponse raw fallback).raw_response = raw := rfl

/-- Witness for claim C6 at a concrete input. -/
theorem claim_C6_witness :
    ("짧은 응답 본문".data : Str) ≠ []
      ∧ (parseResponse "짧은 응답 본문".data "제목".data).raw_response
        = "짧은 응답 본문".data :=
  ⟨by decide, claim_C6 "짧은 응답 본문".data "제목".data (by decide)⟩

/-- Claim C2: for every input — any raw response text, any fallback
title, and also the degraded error path — the sentiment of the result is
exactly one of the three enum values "호재", "악재", "중립". -/
theorem claim_C2 (news_title : Str) (generation : Except Str Str) :
    (summarize_with_gemini news_title generation).sentiment = posTok
      ∨ (summarize_with_gemini news_title generation).sentiment = negTok
      ∨ (summarize_with_gemini news_title generation).sentiment
        = neutralTok := by
  cases generation with
  | error e => exact Or.inr (Or.inr rfl)
  | ok rt =>
    have hun : summarize_with_gemini news_title (Except.ok rt)
        = parseResponse rt news_title := rfl
    rw [hun, parseResponse_sentiment]
    have h0 : (scanResult rt news_title).sentiment = posTok
        ∨ (scanResult rt news_title).sentiment = negTok
        ∨ (scanResult rt news_title).sentiment = neutralTok :=
      scanGo_sentiment_mem rt (pyLines rt) ⟨news_title, [], [], neutralTok⟩
        (Or.inr (Or.inr rfl))
    by_cases hn : (scanResult rt news_title).sentiment = neutralTok
    · rw [hn, finalSentiment_neutral]
      by_cases hre : rescanSentiment (pyLines rt) neutralTok = neutralTok
      · rw [if_pos hre]
        rcases lastMentionSentiment_mem rt
            (rescanSentiment (pyLines rt) neutralTok) with h | h | h
        · exact Or.inl h
        · exact Or.inr (Or.inl h)
        · exact Or.inr (Or.inr (h.trans hre))
      · rw [if_neg hre]
        rcases rescanSentiment_mem (pyLines rt) neutralTok with h | h | h
        · exact Or.inl h
        · exact Or.inr (Or.inl h)
        · exact absurd h hre
    · rw [finalSentiment_of_ne rt _ hn]
      exact h0

/-- Claim C9: the korean_title of the parsed output equals the fallback
title when no line contains the translated-title marker, and is the
trimmed remainder after the marker of the (last) marker-carrying line
otherwise. -/
theorem claim_C9 (raw fallback : Str) (pre rest : List Str) (mid : Str) :
    ((∀ l ∈ pyLines raw, isTitleBranch l = false) →
      (parseResponse raw fallback).korean_title = fallback)
    ∧ ((pyLines raw = pre ++ mid :: rest ∧ isTitleBranch mid = true
        ∧ ∀ l ∈ rest, isTitleBranch l = false) →
      (parseResponse raw fallback).korean_title =
        pyStrip (lastSplitPiece titleMarker mid)) := by
  constructor
  · intro h
    rw [parseResponse_korean_title]
    exact scanGo_korean_title_invariant raw (pyLines raw) _ h
  · rintro ⟨hdec, hb, hr⟩
    rw [parseResponse_korean_title]
    show (scanGo raw (pyLines raw) ⟨fallback, [], [], neutralTok⟩).korean_title
      = _
    rw [hdec]
    exact scanGo_korean_title_last raw pre rest mid _ hb hr

/-- Witness for claim C9 at a concrete input with a title-marker line. -/
theorem claim_C9_witness :
    (pyLines "머리말\n1. 한국어 제목: 멋진 제목\n본문".data
        = ["머리말".data] ++ "1. 한국어 제목: 멋진 제목".data :: ["본문".data]
      ∧ isTitleBranch "1. 한국어 제목: 멋진 제목".data = true
      ∧ ∀ l ∈ ["본문".data], isTitleBranch l = false)
    ∧ (parseResponse "머리말\n1. 한국어 제목: 멋진 제목\n본문".data
        "대체 제목".data).korean_title
      = pyStrip (lastSplitPiece titleMarker "1. 한국어 제목: 멋진 제목".data) :=
  ⟨by decide,
    (claim_C9 "머리말\n1. 한국어 제목: 멋진 제목\n본문".data "대체 제목".data
      ["머리말".data] ["본문".data] "1. 한국어 제목: 멋진 제목".data).2
      (by decide)⟩

/-- Claim C7: when a 3-point-summary marker line is found (the last such
line), the summary is the newline-join of the stripped bullet lines in
the 3-line window after it, falling back to the entire raw text when the
window has no bullet line; and when no summary-marker line exists at all
the summary is the entire raw text. -/
theorem claim_C7 (raw fallback : Str) (pre rest : List Str) (mid : Str) :
    ((pyLines raw = pre ++ mid :: rest ∧ isSummaryBranch mid = true
        ∧ ∀ l ∈ rest, isSummaryBranch l = false) →
      (parseResponse raw fallback).summary =
        (if collectBullets (rest.take 3) = [] then raw
         else joinNL (collectBullets (rest.take 3))))
    ∧ ((∀ l ∈ pyLines raw, isSummaryBranch l = false) →
      (parseResponse raw fallback).summary = raw) := by
  constructor
  · rintro ⟨hdec, hb, hr⟩
    rw [parseResponse_summary]
    have hsum : (scanResult raw fallback).summary =
        (if collectBullets (rest.take 3) = [] then raw
         else joinNL (collectBullets (rest.take 3))) := by
      show (scanGo raw (pyLines raw) ⟨fallback, [], [], neutralTok⟩).summary
        = _
      rw [hdec]
      exact scanGo_summary_last raw pre rest mid _ hb hr
    rw [hsum]
    by_cases hbs : collectBullets (rest.take 3) = []
    · rw [if_pos hbs]
      by_cases hraw : raw = ([] : Str)
      · rw [if_pos hraw]
      · rw [if_neg hraw]
    · rw [if_neg hbs]
      have hne : joinNL (collectBullets (rest.take 3)) ≠ [] :=
        joinNL_ne_nil _ hbs (fun b hb2 => mem_collectBullets_ne_nil _ b hb2)
      rw [if_neg hne]
  · intro h
    rw [parseResponse_summary]
    have hsum : (scanResult raw fallback).summary = [] := by
      show (scanGo raw (pyLines raw) ⟨fallback, [], [], neutralTok⟩).summary
        = _
      exact scanGo_summary_invariant raw _ _ h
    rw [hsum, if_pos rfl]

/-- Witness for claim C7 at a concrete input with a summary-marker line
and two bullet lines. -/
theorem claim_C7_witness :
    (pyLines "2. 3줄 요약:\n• 첫째 포인트\n• 둘째 포인트\n마침".data
        = [] ++ "2. 3줄 요약:".data
          :: ["• 첫째 포인트".data, "• 둘째 포인트".data, "마침".data]
      ∧ isSummaryBranch "2. 3줄 요약:".data = true
      ∧ ∀ l ∈ ["• 첫째 포인트".data, "• 둘째 포인트".data, "마침".data],
          isSummaryBranch l = false)
    ∧ (parseResponse "2. 3줄 요약:\n• 첫째 포인트\n• 둘째 포인트\n마침".data
        "제목".data).summary =
      (if collectBullets
          ((["• 첫째 포인트".data, "• 둘째 포인트".data, "마침".data]).take 3)
          = [] then "2. 3줄 요약:\n• 첫째 포인트\n• 둘째 포인트\n마침".data
       else joinNL (collectBullets
          ((["• 첫째 포인트".data, "• 둘째 포인트".data, "마침".data]).take 3))) :=
  ⟨by decide,
    (claim_C7 "2. 3줄 요약:\n• 첫째 포인트\n• 둘째 포인트\n마침".data "제목".data
      [] ["• 첫째 포인트".data, "• 둘째 포인트".data, "마침".data]
      "2. 3줄 요약:".data).1 (by decide)⟩

/-- Claim C8 (counterexample): after a key-quotations marker line the
source collects quote lines only inside a 3-line window, so with four
quote lines the output keeps the first three, not the join of all
subsequent quote lines the claim describes. -/
theorem claim_C8_counterexample :
    (parseResponse "핵심 문장:\n> 가\n> 나\n> 다\n> 라".data
        "제목".data).key_quotes = some "> 가\n> 나\n> 다".data
      ∧ some "> 가\n> 나\n> 다".data
        ≠ some (joinNL (collectQuotesUnboundedSpec
            ["> 가".data, "> 나".data, "> 다".data, "> 라".data])) := by
  constructor
  · decide
  · decide

/-- Claim C8 (amended): when a key-quotations marker line is found (the
last such line), keyQuotes is the newline-join of the stripped
quote-prefixed lines inside the 3-line window after it (stopping early at
a non-quote line mentioning the sentiment marker), and is empty text when
that window yields no quote line. -/
theorem claim_C8_amended (raw fallback : Str) (pre rest : List Str)
    (mid : Str)
    (hdec : pyLines raw = pre ++ mid :: rest)
    (hb : isQuotesBranch mid = true)
    (hr : ∀ l ∈ rest, isQuotesBranch l = false) :
    (parseResponse raw fallback).key_quotes =
      some (if collectQuotes (rest.take 3) = [] then []
            else joinNL (collectQuotes (rest.take 3))) := by
  rw [parseResponse_key_quotes]
  have hkq : (scanResult raw fallback).key_quotes =
      (if collectQuotes (rest.take 3) = [] then []
       else joinNL (collectQuotes (rest.take 3))) := by
    show (scanGo raw (pyLines raw) ⟨fallback, [], [], neutralTok⟩).key_quotes
      = _
    rw [hdec]
    exact scanGo_key_quotes_last raw pre rest mid _ hb hr
  rw [hkq]

/-- Witness for the amended claim C8 at a concrete input with one quote
line in the window. -/
theorem claim_C8_witness :
    (pyLines "3. 핵심 문장:\n> 인용 하나\n맺음".data
        = [] ++ "3. 핵심 문장:".data :: ["> 인용 하나".data, "맺음".data]
      ∧ isQuotesBranch "3. 핵심 문장:".data = true
      ∧ ∀ l ∈ ["> 인용 하나".data, "맺음".data], isQuotesBranch l = false)
    ∧ (parseResponse "3. 핵심 문장:\n> 인용 하나\n맺음".data
        "제목".data).key_quotes =
      some (if collectQuotes ((["> 인용 하나".data, "맺음".data]).take 3) = []
            then []
            else joinNL (collectQuotes
              ((["> 인용 하나".data, "맺음".data]).take 3))) :=
  ⟨by decide,
    claim_C8_amended "3. 핵심 문장:\n> 인용 하나\n맺음".data "제목".data
      [] ["> 인용 하나".data, "맺음".data] "3. 핵심 문장:".data
      (by decide) (by decide) (by decide)⟩

/-- Claim C1 (counterexample): a raw text can contain a well-formed
sentiment line naming "호재" and still come out Negative, because a later
sentiment-marker line overwrites the classification. -/
theorem claim_C1_counterexample :
    isSentimentBranch "감성 분석: 호재".data = true
      ∧ strContains (sentimentTextOfLine "감성 분석: 호재".data) posTok = true
      ∧ "감성 분석: 호재".data ∈ pyLines "감성 분석: 호재\n감성 분석: 악재".data
      ∧ (parseResponse "감성 분석: 호재\n감성 분석: 악재".data
          "제목".data).sentiment = negTok
      ∧ negTok ≠ posTok := by
  refine ⟨by decide, by decide, by decide, by decide, by decide⟩

/-- Claim C1 (amended): when the LAST sentiment-marker line of the raw
text has extracted text containing "호재", the output sentiment is
Positive; when that text contains "악재" and not "호재", the output is
Negative. -/
theorem claim_C1_amended (raw fallback : Str) (pre rest : List Str)
    (mid : Str)
    (hdec : pyLines raw = pre ++ mid :: rest)
    (hb : isSentimentBranch mid = true)
    (hr : ∀ l ∈ rest, isSentimentBranch l = false) :
    (strContains (sentimentTextOfLine mid) posTok = true →
      (parseResponse raw fallback).sentiment = posTok)
    ∧ (strContains (sentimentTextOfLine mid) negTok = true →
      strContains (sentimentTextOfLine mid) posTok = false →
      (parseResponse raw fallback).sentiment = negTok) := by
  have hscan : (scanResult raw fallback).sentiment =
      classifySentiment (sentimentTextOfLine mid) := by
    show (scanGo raw (pyLines raw) ⟨fallback, [], [], neutralTok⟩).sentiment
      = _
    rw [hdec]
    exact scanGo_sentiment_last raw pre rest mid _ hb hr
  constructor
  · intro hp
    have hc : classifySentiment (sentimentTextOfLine mid) = posTok := by
      unfold classifySentiment
      simp [hp]
    rw [parseResponse_sentiment, hscan, hc,
      finalSentiment_of_ne raw posTok (by decide)]
  · intro hn hp
    have hc : classifySentiment (sentimentTextOfLine mid) = negTok := by
      unfold classifySentiment
      simp [hp, hn]
    rw [parseResponse_sentiment, hscan, hc,
      finalSentiment_of_ne raw negTok (by decide)]

/-- Witness for the amended claim C1 at a concrete input whose single
sentiment line names "호재". -/
theorem claim_C1_witness :
    (pyLines "4. 감성 분석: 호재 - 좋은 소식".data
        = [] ++ "4. 감성 분석: 호재 - 좋은 소식".data :: []
      ∧ isSentimentBranch "4. 감성 분석: 호재 - 좋은 소식".data = true
      ∧ (∀ l ∈ ([] : List Str), isSentimentBranch l = false)
      ∧ strContains
          (sentimentTextOfLine "4. 감성 분석: 호재 - 좋은 소식".data) posTok
          = true)
    ∧ (parseResponse "4. 감성 분석: 호재 - 좋은 소식".data
        "제목".data).sentiment = posTok :=
  ⟨by decide,
    (claim_C1_amended "4. 감성 분석: 호재 - 좋은 소식".data "제목".data
      [] [] "4. 감성 분석: 호재 - 좋은 소식".data
      (by decide) (by decide) (by decide)).1 (by decide)⟩

/-- Claim C10 (counterexample): with three sentiment-marker lines
("악재", then "호재", then a token-free one), the token-bearing line that
comes last ("호재") does NOT determine the primary classification: the
final token-free marker line resets it to Neutral and the fallback
re-scan then takes the FIRST token-bearing line, giving "악재". -/
theorem claim_C10_counterexample :
    isSentimentBranch "감성 분석: 호재".data = true
      ∧ strContains (sentimentTextOfLine "감성 분석: 호재".data) posTok = true
      ∧ isSentimentBranch "감성 분석: 판단 불가".data = true
      ∧ classifySentiment (sentimentTextOfLine "감성 분석: 판단 불가".data)
        = neutralTok
      ∧ pyLines "감성 분석: 악재\n감성 분석: 호재\n감성 분석: 판단 불가".data
        = ["감성 분석: 악재".data, "감성 분석: 호재".data,
            "감성 분석: 판단 불가".data]
      ∧ (parseResponse
          "감성 분석: 악재\n감성 분석: 호재\n감성 분석: 판단 불가".data
          "제목".data).sentiment = negTok
      ∧ negTok ≠ posTok := by
  refine ⟨by decide, by decide, by decide, by decide, by decide, by decide,
    by decide⟩

/-- Claim C10 (amended): the primary scan processes every
sentiment-marker line in order and each classification overwrites the
previous one, so the LAST sentiment-marker line — whatever it classifies
to, including Neutral — determines the primary result; only when that
classification is Neutral do the fallback tiers run (re-scan first, then
last-mention). -/
theorem claim_C10_amended (raw fallback : Str) (pre rest : List Str)
    (mid : Str)
    (hdec : pyLines raw = pre ++ mid :: rest)
    (hb : isSentimentBranch mid = true)
    (hr : ∀ l ∈ rest, isSentimentBranch l = false) :
    (classifySentiment (sentimentTextOfLine mid) ≠ neutralTok →
      (parseResponse raw fallback).sentiment =
        classifySentiment (sentimentTextOfLine mid))
    ∧ (classifySentiment (sentimentTextOfLine mid) = neutralTok →
      (parseResponse raw fallback).sentiment =
        (if rescanSentiment (pyLines raw) neutralTok = neutralTok then
          lastMentionSentiment raw neutralTok
        else rescanSentiment (pyLines raw) neutralTok)) := by
  have hscan : (scanResult raw fallback).sentiment =
      classifySentiment (sentimentTextOfLine mid) := by
    show (scanGo raw (pyLines raw) ⟨fallback, [], [], neutralTok⟩).sentiment
      = _
    rw [hdec]
    exact scanGo_sentiment_last raw pre rest mid _ hb hr
  constructor
  · intro h
    rw [parseResponse_sentiment, hscan, finalSentiment_of_ne raw _ h]
  · intro h
    rw [parseResponse_sentiment, hscan, h, finalSentiment_neutral]
    by_cases hre : rescanSentiment (pyLines raw) neutralTok = neutralTok
    · rw [if_pos hre, hre, if_pos rfl]
    · rw [if_neg hre, if_neg hre]

/-- Witness for the amended claim C10 at a concrete input whose single
(unspaced) sentiment-marker line classifies to "악재". -/
theorem claim_C10_witness :
    (pyLines "감성분석: 악재 전망".data
        = [] ++ "감성분석: 악재 전망".data :: []
      ∧ isSentimentBranch "감성분석: 악재 전망".data = true
      ∧ (∀ l ∈ ([] : List Str), isSentimentBranch l = false)
      ∧ classifySentiment (sentimentTextOfLine "감성분석: 악재 전망".data)
        ≠ neutralTok)
    ∧ (parseResponse "감성분석: 악재 전망".data "제목".data).sentiment =
      classifySentiment (sentimentTextOfLine "감성분석: 악재 전망".data) :=
  ⟨by decide,
    (claim_C10_amended "감성분석: 악재 전망".data "제목".data
      [] [] "감성분석: 악재 전망".data
      (by decide) (by decide) (by decide)).1 (by decide)⟩

/-- Claim C4 (counterexample): on a sentiment-marker line with two
colons, the text the source classifies is the remainder after the LAST
colon, not the remainder after the first colon the claim describes. -/
theorem claim_C4_counterexample :
    isSentimentBranch "감성 분석: 호재: 하락".data = true
      ∧ strContains "감성 분석: 호재: 하락".data colonStr = true
      ∧ sentimentTextOfLine "감성 분석: 호재: 하락".data
        ≠ sentimentTextFirstColonSpec "감성 분석: 호재: 하락".data
      ∧ sentimentTextOfLine "감성 분석: 호재: 하락".data = "하락".data
      ∧ sentimentTextFirstColonSpec "감성 분석: 호재: 하락".data
        = "호재: 하락".data := by
  refine ⟨by decide, by decide, by decide, by decide, by decide⟩

/-- Claim C4 (amended): in the primary sentiment scan, the text that is
classified on a sentiment-marker line with a colon is the trimmed
remainder of the line after the LAST colon; a line with no colon is
classified whole. -/
theorem claim_C4_amended (line : Str) (hb : isSentimentBranch line = true) :
    (strContains line colonStr = true →
      sentimentTextOfLine line = pyStrip (suffixAfterLastChar ':' line))
    ∧ (strContains line colonStr = false →
      sentimentTextOfLine line = line) := by
  constructor
  · intro h
    unfold sentimentTextOfLine
    rw [if_pos h, lastPiece_charSplit]
  · intro h
    unfold sentimentTextOfLine
    rw [if_neg (by simp [h])]

/-- Witness for the amended claim C4 at a concrete two-colon line. -/
theorem claim_C4_witness :
    (isSentimentBranch "2. 감성 분석: 악재 예상: 주의".data = true
      ∧ strContains "2. 감성 분석: 악재 예상: 주의".data colonStr = true)
    ∧ sentimentTextOfLine "2. 감성 분석: 악재 예상: 주의".data
      = pyStrip (suffixAfterLastChar ':' "2. 감성 분석: 악재 예상: 주의".data) :=
  ⟨⟨by decide, by decide⟩,
    (claim_C4_amended "2. 감성 분석: 악재 예상: 주의".data (by decide)).1
      (by decide)⟩

/-- Claim C3: when no line of the raw text mentions "감성" or
"sentiment" (so the marker scan and the re-scan both yield Neutral), the
output sentiment is decided by the last occurrence indices of "호재" and
"악재" in the full raw text: the later one wins, and when neither occurs
the sentiment stays Neutral. -/
theorem claim_C3 (raw fallback : Str)
    (h : ∀ l ∈ pyLines raw, strContains l gamseongTok = false
      ∧ strContains (lowerStr l) sentimentWord = false) :
    (rfindSub raw posTok > rfindSub raw negTok →
      (parseResponse raw fallback).sentiment = posTok)
    ∧ (rfindSub raw negTok > rfindSub raw posTok →
      (parseResponse raw fallback).sentiment = negTok)
    ∧ (rfindSub raw posTok = -1 ∧ rfindSub raw negTok = -1 →
      (parseResponse raw fallback).sentiment = neutralTok) := by
  have hnb : ∀ l ∈ pyLines raw, isSentimentBranch l = false := by
    intro l hl
    rcases hq : isSentimentBranch l with _ | _
    · rfl
    · exact absurd (isSentimentBranch_contains_gamseong l hq)
        (by simp [(h l hl).1])
  have hscan : (scanResult raw fallback).sentiment = neutralTok := by
    show (scanGo raw (pyLines raw) ⟨fallback, [], [], neutralTok⟩).sentiment
      = _
    exact scanGo_sentiment_invariant raw _ _ hnb
  have hfs : (parseResponse raw fallback).sentiment =
      lastMentionSentiment raw neutralTok := by
    rw [parseResponse_sentiment, hscan, finalSentiment_neutral,
      rescanSentiment_of_none _ _ h, if_pos rfl]
  refine ⟨?_, ?_, ?_⟩
  · intro hgt
    rw [hfs]
    exact lastMentionSentiment_pos raw _ hgt
  · intro hgt
    rw [hfs]
    exact lastMentionSentiment_neg raw _ hgt
  · rintro ⟨hp, hn⟩
    rw [hfs]
    exact lastMentionSentiment_none raw _ hp hn

/-- Witness for claim C3 at a concrete marker-free input where "호재"
occurs after the last "악재". -/
theorem claim_C3_witness :
    ((∀ l ∈ pyLines "시장에 악재 이후 호재 등장".data,
        strContains l gamseongTok = false
        ∧ strContains (lowerStr l) sentimentWord = false)
      ∧ rfindSub "시장에 악재 이후 호재 등장".data posTok
        > rfindSub "시장에 악재 이후 호재 등장".data negTok)
    ∧ (parseResponse "시장에 악재 이후 호재 등장".data
        "제목".data).sentiment = posTok :=
  ⟨⟨by decide, by decide⟩,
    (claim_C3 "시장에 악재 이후 호재 등장".data "제목".data (by decide)).1
      (by decide)⟩
